import Mathlib

/-!
Verification of the `star` archive tool (src/src/main.rs) against its
natural-language specification.  The Rust program is embedded shallowly:
pure string manipulation is translated directly, and the effectful
`create` / `extract` / `main` paths are modelled as functions from their
inputs (argument lists, abstract filesystem oracles, abstract codec
transforms) to an explicit `Outcome` value recording panics, normal
help-printing exits, and successful completions.
-/

namespace Star

/-- ASCII lowercasing of a string.  Models Rust `str::to_lowercase` on the
ASCII data this program compares against (the keywords `from` / `to` and the
format names); the program never compares non-ASCII strings against its
tables. -/
def lowerStr (s : String) : String := String.mk (s.toList.map Char.toLower)

/-- Split a character list on a separator character; the separators are
dropped and empty pieces are kept (e.g. `.xz` splits into `[[], [x, z]]`). -/
def splitOnChar (sep : Char) (l : List Char) : List (List Char) :=
  l.foldr
    (fun c acc =>
      match acc with
      | [] => [[c]]
      | cur :: rest => if c = sep then [] :: cur :: rest else (c :: cur) :: rest)
    [[]]

/-- Final normal component of a slash-separated path, modelling
`std::path::Path::file_name`: empty and `.` components are dropped, and a
path whose last component is `..` has no file name. -/
def fileName (p : List Char) : Option (List Char) :=
  let comps := (splitOnChar '/' p).filter (fun c => !(c == [] || c == ['.']))
  match comps.getLast? with
  | none => none
  | some c => if c = ['.', '.'] then none else some c

/-- Extension of a path, modelling `std::path::Path::extension`: the portion
of the file name after its final `.`; `none` when there is no file name, the
file name contains no `.`, or its only `.` is its leading character (so a
dot-file such as `.xz` has no extension). -/
def rustExtension (p : List Char) : Option (List Char) :=
  match fileName p with
  | none => none
  | some name =>
    match splitOnChar '.' name with
    | [] => none
    | [_] => none
    | first :: rest => if first = [] ∧ rest.length = 1 then none else rest.getLast?

/-- The fixed lowercase format table of `check_format_type` in main.rs. -/
def lookupFormat (t : String) : Option String :=
  if t = "xz" then some "xz"
  else if t = "gzip" ∨ t = "gz" ∨ t = "tgz" ∨ t = "z" then some "gzip"
  else if t = "tar" then some "tar"
  else if t = "zst" ∨ t = "zstd" then some "zstd"
  else none

/-- `check_format_type` from main.rs: the explicit format flag wins; otherwise
the path's extension (Rust semantics) is consulted; the chosen name is
lowercased and looked up in the fixed table; a missing extension or an
unrecognized name yields `none` (the unknown-format error). -/
def check_format_type (format_type : Option String) (path : String) : Option String :=
  match format_type with
  | some f => lookupFormat (lowerStr f)
  | none =>
    match rustExtension path.toList with
    | some e => lookupFormat (lowerStr (String.mk e))
    | none => none

/-- Modelled from the spec's words, for comparison with the code: the
"extension" as C3 phrases it — the characters after the last `.` in the final
path segment (the segment being everything after the last `/`), absent only
when the segment contains no `.` at all. -/
def claimExtension (p : List Char) : Option (List Char) :=
  let seg := ((splitOnChar '/' p).getLast?).getD []
  match splitOnChar '.' seg with
  | [] => none
  | [_] => none
  | _ :: rest => rest.getLast?

/-- Modelled from the spec's words, for comparison with `check_format_type`:
codec resolution as claim C3 states it, using `claimExtension` in place of the
Rust extension semantics. -/
def resolveClaim (format_type : Option String) (path : String) : Option String :=
  match format_type with
  | some f => lookupFormat (lowerStr f)
  | none =>
    match claimExtension path.toList with
    | some e => lookupFormat (lowerStr (String.mk e))
    | none => none

/-- Whether `pat` is a suffix of `s`, modelling Rust `str::ends_with`. -/
def strEndsWith (s pat : String) : Bool :=
  List.isSuffixOf pat.toList s.toList

/-- `target_is_dir` from main.rs: a purely syntactic predicate on the target
path string; `windows` models `cfg!(windows)`. -/
def target_is_dir (windows : Bool) (path : String) : Bool :=
  if path.toList.length = 0 then true
  else if strEndsWith path "/" then true
  else if windows && strEndsWith path "\\" then true
  else false

/-- State of the append-directive loop in `create` (main.rs lines 205-240):
`paths` is the pending source group as the list of glob patterns lazily
chained so far, `fromF` / `toF` are the two booleans `from` / `to`, and `out`
records, in order, each (source-group, optional rename target) mapping at the
moment it is flushed into the archive writer. -/
structure PState where
  paths : Option (List String)
  fromF : Bool
  toF : Bool
  out : List (List String × Option String)
deriving DecidableEq

/-- One iteration of the directive loop body on token `param`; `none` models a
panic of the `paths.take().unwrap()` call (reached only if `toF` is set while
no group is pending). -/
def stepTok (s : PState) (param : String) : Option PState :=
  if lowerStr param = "from" then
    some { s with fromF := true }
  else if s.toF then
    match s.paths with
    | none => none
    | some ps => some { s with paths := none, toF := false, out := s.out ++ [(ps, some param)] }
  else
    match s.paths with
    | some ps =>
      if lowerStr param = "to" then some { s with toF := true, fromF := false }
      else if s.fromF then some { s with paths := some (ps ++ [param]) }
      else some { s with paths := none, out := s.out ++ [(ps, none)] }
    | none => some { s with paths := some [param] }

/-- Run the directive loop over a token list from a given state. -/
def runToks : PState → List String → Option PState
  | s, [] => some s
  | s, t :: ts =>
    match stepTok s t with
    | none => none
    | some s2 => runToks s2 ts

/-- The whole append-directive parse: run the loop from the initial state and
flush any remaining pending group with no destination, as the code does after
the loop.  The result is the ordered list of (pattern-group, optional target)
mappings in the order they are applied to the archive writer; `none` models a
parse-time panic. -/
def parseDirectives (toks : List String) : Option (List (List String × Option String)) :=
  match runToks ⟨none, false, false, []⟩ toks with
  | none => none
  | some s =>
    some (s.out ++ (match s.paths with
                    | some ps => [(ps, none)]
                    | none => []))

/-- `PathBuf::push` of a file name onto a base path (unix separator). -/
def pathPush (dir : String) (name : String) : String :=
  if dir = "" then name
  else if strEndsWith dir "/" then dir ++ name
  else dir ++ "/" ++ name

/-- Entry name computed by `append` in main.rs for one matched source path:
the rename target if given, else the source path itself; if that target is
directory-like, the source's file name is pushed onto it (`none` models the
`path.file_name().unwrap()` panic on a path with no file name). -/
def entryName (windows : Bool) (target : Option String) (path : String) : Option String :=
  let t := target.getD path
  if target_is_dir windows t then (fileName path.toList).map (fun n => pathPush t (String.mk n))
  else some t

/-- `Option`-valued map over a list, short-circuiting on the first `none`. -/
def optMapM {α β : Type} (f : α → Option β) : List α → Option (List β)
  | [] => some []
  | a :: as =>
    match f a with
    | none => none
    | some b =>
      match optMapM f as with
      | none => none
      | some bs => some (b :: bs)

/-- The `append` function of main.rs on one resolved mapping: for each matched
source path, in order, the pair (source path, computed entry name).  `none`
models a panic while computing an entry name; there is no uniqueness check on
entry names. -/
def appendEntries (windows : Bool) (paths : List String) (target : Option String) :
    Option (List (String × String)) :=
  optMapM (fun p => (entryName windows target p).map (fun e => (p, e))) paths

/-- Matches of a lazily chained pattern group: the concatenation, in order, of
the matches of each pattern under the glob oracle `mo`. -/
def globMatches (mo : String → List String) (pats : List String) : List String :=
  pats.foldr (fun p acc => mo p ++ acc) []

/-- Outcome of one modelled invocation.  `usageExit` is the unknown-format
branch of `main`: it prints the diagnostic and the generated help text and
then returns normally (exit status 0).  `panicked` is a Rust `panic!` /
`unwrap` / `expect` abort; `fileCreated` records whether the destination file
had already been created when the panic fired.  `finished` is a successful
run with the tar entries appended (empty in compression-only mode), the raw
bytes written (empty in tar mode), and the final confirmation line. -/
inductive Outcome where
  | usageExit (diag : String)
  | panicked (fileCreated : Bool) (msg : String)
  | finished (entries : List (String × String)) (bytes : List Nat) (confirm : String)
deriving DecidableEq

/-- Compression-only branch of `create` (main.rs lines 181-203): the
destination-existence panic fires before `File::create`; afterwards the file
exists, exactly one argument is accepted, its first glob match is read via
`readFile` and streamed through the encoder `enc`. -/
def createCO (enc : List Nat → List Nat) (filepath : String) (destExists : Bool)
    (args : List String) (matchesOf : String → List String)
    (readFile : String → List Nat) : Outcome :=
  if destExists then .panicked false ("file path " ++ filepath ++ " exists")
  else
    match args with
    | [] => .panicked true "source file no exists"
    | p :: rest =>
      match rest with
      | _ :: _ => .panicked true "more than one file. can not compression only"
      | [] =>
        match matchesOf p with
        | [] => .panicked true "source file no exists"
        | m :: _ => .finished [] (enc (readFile m)) (filepath ++ " created.")

/-- Tar branch of `create` (main.rs lines 181-186 and 205-242): after the
destination-existence check and `File::create`, the directive tokens are
parsed and each resolved mapping is applied to the archive via `append`; on
success the entries are those of all mappings in order, followed by the
confirmation line. -/
def createTar (windows : Bool) (filepath : String) (destExists : Bool)
    (toks : List String) (matchesOf : String → List String) : Outcome :=
  if destExists then .panicked false ("file path " ++ filepath ++ " exists")
  else
    match parseDirectives toks with
    | none => .panicked true "called Option.unwrap on a None value"
    | some maps =>
      match optMapM (fun g => appendEntries windows (globMatches matchesOf g.1) g.2) maps with
      | none => .panicked true "called Option.unwrap on a None value"
      | some ess => .finished ess.flatten [] (filepath ++ " created.")

/-- The `c` subcommand dispatch in `main` (lines 86-97): unknown format prints
the diagnostic plus the help text and returns normally; otherwise `create`
runs in the selected mode with the selected codec. -/
def mainCreate (fmtFlag : Option String) (compressionOnly : Bool) (windows : Bool)
    (archive : String) (destExists : Bool) (args : List String)
    (matchesOf : String → List String) (readFile : String → List Nat)
    (encOf : String → List Nat → List Nat) : Outcome :=
  match check_format_type fmtFlag archive with
  | none => .usageExit "unknown format"
  | some t =>
    if compressionOnly then createCO (encOf t) archive destExists args matchesOf readFile
    else createTar windows archive destExists args matchesOf

/-- The `x` subcommand dispatch in `main` (lines 98-109) together with
`extract` (lines 257-273): unknown format prints the diagnostic plus help and
returns normally; a destination that exists and is not a directory is a
panic; in compression-only mode the decoded archive bytes are written to the
destination file (`File::create` on an existing directory panics); in normal
mode the tar stream is unpacked (modelled as success). -/
def mainExtract (fmtFlag : Option String) (compressionOnly : Bool)
    (archive : String) (dst : String) (dstExists : Bool) (dstIsDir : Bool)
    (decOf : String → List Nat → List Nat) (archiveBytes : List Nat) : Outcome :=
  match check_format_type fmtFlag archive with
  | none => .usageExit "unknown format"
  | some t =>
    if dstExists && !dstIsDir then .panicked false ("dst path " ++ dst ++ " exists")
    else if compressionOnly then
      if dstExists then .panicked false "could not create destination file"
      else .finished [] (decOf t archiveBytes) "ok."
    else .finished [] [] "ok."

/-! Helper lemmas shared by the claim theorems. -/

/-- The directive loop never panics from any state satisfying the loop
invariant that the `to` flag implies a pending source group. -/
theorem runToks_isSome (toks : List String) :
    ∀ s : PState, (s.toF = true → s.paths.isSome = true) →
      (runToks s toks).isSome = true := by
  induction toks with
  | nil => intro s _; rfl
  | cons tk ts ih =>
    intro s h
    unfold runToks stepTok
    by_cases hf : lowerStr tk = "from"
    · rw [if_pos hf]
      exact ih _ h
    · rw [if_neg hf]
      by_cases ht : s.toF = true
      · have hps := h ht
        rcases hp : s.paths with _ | ps
        · rw [hp] at hps; simp at hps
        · rw [if_pos ht]
          exact ih _ (by intro h2; simp at h2)
      · rw [if_neg ht]
        rcases hp : s.paths with _ | ps
        · exact ih _ (fun _ => rfl)
        · by_cases h2 : lowerStr tk = "to"
          · simp [h2]
            exact ih _ (fun _ => rfl)
          · by_cases h3 : s.fromF = true
            · simp [h2, h3]
              exact ih _ (fun _ => rfl)
            · simp [h2, h3]
              exact ih _ (fun hh => absurd hh ht)

/-- Directive parsing is total: no arrangement of tokens makes it panic. -/
theorem parseDirectives_isSome (toks : List String) :
    (parseDirectives toks).isSome = true := by
  unfold parseDirectives
  have h := runToks_isSome toks ⟨none, false, false, []⟩ (by intro h2; simp at h2)
  rcases hr : runToks ⟨none, false, false, []⟩ toks with _ | s
  · rw [hr] at h; simp at h
  · rfl

/-- A pattern group all of whose patterns match nothing matches nothing. -/
theorem globMatches_nil (mo : String → List String) (h : ∀ p, mo p = [])
    (pats : List String) : globMatches mo pats = [] := by
  induction pats with
  | nil => rfl
  | cons p ps ih =>
    unfold globMatches at ih ⊢
    simp [h p, ih]

/-- `optMapM` of a function returning `some []` everywhere on the list. -/
theorem optMapM_const_nil {α β : Type} (f : α → Option (List β)) (l : List α)
    (h : ∀ a ∈ l, f a = some []) :
    optMapM f l = some (l.map (fun _ => [])) := by
  induction l with
  | nil => rfl
  | cons a as ih =>
    unfold optMapM
    rw [h a (by simp), ih (fun x hx => h x (by simp [hx]))]
    rfl

/-- `optMapM` only depends on the pointwise behaviour of its function. -/
theorem optMapM_congr {α β : Type} (f g : α → Option β) (l : List α)
    (h : ∀ a, f a = g a) : optMapM f l = optMapM g l := by
  induction l with
  | nil => rfl
  | cons a as ih =>
    unfold optMapM
    rw [h a, ih]

/-- `optMapM` of a total function is the plain map. -/
theorem optMapM_some {α β : Type} (g : α → β) (l : List α) :
    optMapM (fun a => some (g a)) l = some (l.map g) := by
  induction l with
  | nil => rfl
  | cons a as ih =>
    unfold optMapM
    rw [ih]
    rfl

/-- Flattening a list of empty lists gives the empty list. -/
theorem flatten_map_nil {α β : Type} (l : List α) :
    (l.map (fun _ => ([] : List β))).flatten = [] := by
  induction l with
  | nil => rfl
  | cons a as ih => simp [ih]

/-! The claim theorems. -/

/-- Claim C1: the create-path directive parser, on `[p1, to, d1, p2]`,
produces the ordered mappings (group `[p1]`, destination `d1`) then (group
`[p2]`, no destination); on `[p1, from, p2, to, d1]` it produces the single
mapping (group `[p1, p2]` — the matches of `p1` chained with those of `p2` —
destination `d1`); the keywords are matched case-insensitively (`f` and `t`
are any spellings lowercasing to `from` / `to`), and the output list records
the mappings in the order they are flushed into the archive writer. -/
theorem c1_directive_grammar (p1 d1 p2 f t : String)
    (hp1f : lowerStr p1 ≠ "from") (hp1t : lowerStr p1 ≠ "to")
    (hp2f : lowerStr p2 ≠ "from") (hp2t : lowerStr p2 ≠ "to")
    (hd1f : lowerStr d1 ≠ "from") (hd1t : lowerStr d1 ≠ "to")
    (hf : lowerStr f = "from") (ht : lowerStr t = "to") :
    parseDirectives [p1, t, d1, p2] = some [([p1], some d1), ([p2], none)] ∧
    parseDirectives [p1, f, p2, t, d1] = some [([p1, p2], some d1)] := by
  constructor
  · simp [parseDirectives, runToks, stepTok, hp1f, hp2f, hd1f, hf, ht]
  · simp [parseDirectives, runToks, stepTok, hp1f, hp2f, hp2t, hd1f, hf, ht]

/-- Witness for C1 at concrete tokens, with mixed-case keywords. -/
theorem c1_directive_grammar_witness :
    parseDirectives ["a", "To", "dst", "b"] = some [(["a"], some "dst"), (["b"], none)] ∧
    parseDirectives ["a", "FROM", "b", "To", "dst"] = some [(["a", "b"], some "dst")] :=
  c1_directive_grammar "a" "dst" "b" "FROM" "To"
    (by decide) (by decide) (by decide) (by decide) (by decide) (by decide)
    (by decide) (by decide)

/-- Claim C2 counterexample: a `to` token with no pending source group does
not abort the run; the parser consumes it as an ordinary glob pattern and
succeeds. -/
theorem c2_counterexample :
    parseDirectives ["to"] ≠ none ∧ parseDirectives ["to"] = some [(["to"], none)] := by
  constructor
  · decide
  · decide

/-- Claim C2 as amended: a `to` token that appears without a pending source
group is not rejected — it is consumed as an ordinary glob-pattern token
starting a new source group — and directive parsing never aborts for any
token sequence. -/
theorem c2_no_parse_abort :
    (∀ toks, (parseDirectives toks).isSome = true) ∧
    parseDirectives ["to", "d"] = some [(["to"], none)] := by
  refine ⟨parseDirectives_isSome, ?_⟩
  decide

/-- Claim C3 counterexample: on the path `.xz` with no explicit flag the
claim's extension rule (characters after the last `.` of the final segment)
selects the xz codec, but the code (Rust `Path::extension`, under which a
dot-file has no extension) yields the unknown-format error. -/
theorem c3_counterexample :
    resolveClaim none ".xz" = some "xz" ∧ check_format_type none ".xz" = none := by
  constructor
  · decide
  · decide

/-- Claim C3 as amended: codec resolution is a pure function of the explicit
flag and the path; an explicit flag is lowercased and looked up in the fixed
table; otherwise the path's extension under Rust semantics (the part of the
final segment after its last `.`, where a segment with no `.`, or whose only
`.` is its leading character, has no extension) is lowercased and looked up;
a missing extension yields the unknown-format result, and the table maps
exactly xz to xz, gzip / gz / tgz / z to gzip, tar to tar, and zst / zstd to
zstd, everything else to the unknown-format result. -/
theorem c3_codec_resolution :
    (∀ f p, check_format_type (some f) p = lookupFormat (lowerStr f)) ∧
    (∀ p e, rustExtension p.toList = some e →
      check_format_type none p = lookupFormat (lowerStr (String.mk e))) ∧
    (∀ p, rustExtension p.toList = none → check_format_type none p = none) ∧
    (lookupFormat "xz" = some "xz" ∧ lookupFormat "gzip" = some "gzip" ∧
     lookupFormat "gz" = some "gzip" ∧ lookupFormat "tgz" = some "gzip" ∧
     lookupFormat "z" = some "gzip" ∧ lookupFormat "tar" = some "tar" ∧
     lookupFormat "zst" = some "zstd" ∧ lookupFormat "zstd" = some "zstd") ∧
    (∀ u, u ≠ "xz" → u ≠ "gzip" → u ≠ "gz" → u ≠ "tgz" → u ≠ "z" →
      u ≠ "tar" → u ≠ "zst" → u ≠ "zstd" → lookupFormat u = none) := by
  refine ⟨fun f p => rfl, ?_, ?_, by decide, ?_⟩
  · intro p e h
    have h2 : rustExtension p.data = some e := h
    simp [check_format_type, h2]
  · intro p h
    have h2 : rustExtension p.data = none := h
    simp [check_format_type, h2]
  · intro u h1 h2 h3 h4 h5 h6 h7 h8
    simp [lookupFormat, h1, h2, h3, h4, h5, h6, h7, h8]

/-- Witness for C3 as amended, at the path `a.tgz` and the unrecognized
format name `rar`. -/
theorem c3_codec_resolution_witness :
    check_format_type none "a.tgz" = lookupFormat (lowerStr (String.mk ['t', 'g', 'z'])) ∧
    lookupFormat "rar" = none :=
  ⟨c3_codec_resolution.2.1 "a.tgz" ['t', 'g', 'z'] (by decide),
   c3_codec_resolution.2.2.2.2 "rar" (by decide) (by decide) (by decide) (by decide)
     (by decide) (by decide) (by decide) (by decide)⟩

/-- Claim C4 counterexample: `create -c ar a b` on a fresh path does panic
with the usage message, but only after `File::create` has run — the outcome
records the archive file as already created, so a file does exist at the
archive path after the failure. -/
theorem c4_counterexample :
    createCO (fun b => b) "ar" false ["a", "b"] (fun _ => ["a"]) (fun _ => [1]) =
      Outcome.panicked true "more than one file. can not compression only" ∧
    (∀ msg, createCO (fun b => b) "ar" false ["a", "b"] (fun _ => ["a"]) (fun _ => [1]) ≠
      Outcome.panicked false msg) := by
  constructor
  · rfl
  · intro msg h
    simp [createCO] at h

/-- Claim C4 as amended: every compression-only create invocation with two or
more source arguments on a fresh archive path fails with the usage-error
panic, but the destination file has already been created when the panic
fires (it is not removed). -/
theorem c4_compression_only_usage (enc : List Nat → List Nat) (fp p1 p2 : String)
    (rest : List String) (mo : String → List String) (rf : String → List Nat) :
    createCO enc fp false (p1 :: p2 :: rest) mo rf =
      Outcome.panicked true "more than one file. can not compression only" := rfl

/-- Claim C5: a create invocation (either mode) whose destination archive
path already exists panics with the destination-exists diagnostic; the
outcome records that no file was opened for writing. -/
theorem c5_destination_exists :
    (∀ enc fp args mo rf, createCO enc fp true args mo rf =
      Outcome.panicked false ("file path " ++ fp ++ " exists")) ∧
    (∀ w fp toks mo, createTar w fp true toks mo =
      Outcome.panicked false ("file path " ++ fp ++ " exists")) :=
  ⟨fun _ _ _ _ _ => rfl, fun _ _ _ _ => rfl⟩

/-- Claim C6 counterexample: with no format flag and the extension-less
archive path `foo`, the run prints the unknown-format diagnostic together
with the help text and returns normally from `main` (exit status 0) — it
does not terminate abnormally, unlike every other detected error. -/
theorem c6_counterexample :
    mainCreate none false false "foo" false ["a"] (fun _ => []) (fun _ => [])
      (fun _ b => b) = Outcome.usageExit "unknown format" ∧
    (∀ fc msg, Outcome.usageExit "unknown format" ≠ Outcome.panicked fc msg) := by
  constructor
  · rfl
  · intro fc msg h
    exact Outcome.noConfusion h

/-- Claim C6 as amended: every detected error prints a diagnostic, and the
unknown-format case is the one that prints the usage/help text — but it then
terminates normally, while the other detected errors (pre-existing
destination, malformed compression-only usage) terminate abnormally via a
panic and print no help text. -/
theorem c6_error_reporting :
    (∀ ff co w ap de args mo rf encOf, check_format_type ff ap = none →
      mainCreate ff co w ap de args mo rf encOf = Outcome.usageExit "unknown format") ∧
    (∀ ff co ap dst de dd decOf bs, check_format_type ff ap = none →
      mainExtract ff co ap dst de dd decOf bs = Outcome.usageExit "unknown format") ∧
    (∀ ff co w ap args mo rf encOf t, check_format_type ff ap = some t →
      mainCreate ff co w ap true args mo rf encOf =
        Outcome.panicked false ("file path " ++ ap ++ " exists")) ∧
    (∀ ff w ap p1 p2 rest mo rf encOf t, check_format_type ff ap = some t →
      mainCreate ff true w ap false (p1 :: p2 :: rest) mo rf encOf =
        Outcome.panicked true "more than one file. can not compression only") := by
  refine ⟨?_, ?_, ?_, ?_⟩
  · intro ff co w ap de args mo rf encOf h
    simp [mainCreate, h]
  · intro ff co ap dst de dd decOf bs h
    simp [mainExtract, h]
  · intro ff co w ap args mo rf encOf t h
    cases co <;> simp [mainCreate, h, createCO, createTar]
  · intro ff w ap p1 p2 rest mo rf encOf t h
    simp [mainCreate, h, createCO]

/-- Witness for C6 as amended at concrete inputs: the extension-less path
`foo` for the unknown-format branches, and the `tar` format for the two
panic branches. -/
theorem c6_error_reporting_witness :
    mainCreate none false false "foo" false ["a"] (fun _ => []) (fun _ => [])
      (fun _ b => b) = Outcome.usageExit "unknown format" ∧
    mainExtract none false "foo" "d" false false (fun _ b => b) [] =
      Outcome.usageExit "unknown format" ∧
    mainCreate (some "tar") false false "ar" true ["a"] (fun _ => []) (fun _ => [])
      (fun _ b => b) = Outcome.panicked false ("file path " ++ "ar" ++ " exists") ∧
    mainCreate (some "tar") true false "ar" false ["a", "b"] (fun _ => []) (fun _ => [])
      (fun _ b => b) = Outcome.panicked true "more than one file. can not compression only" :=
  ⟨c6_error_reporting.1 none false false "foo" false ["a"] (fun _ => []) (fun _ => [])
      (fun _ b => b) (by decide),
   c6_error_reporting.2.1 none false "foo" "d" false false (fun _ b => b) [] (by decide),
   c6_error_reporting.2.2.1 (some "tar") false false "ar" ["a"] (fun _ => []) (fun _ => [])
      (fun _ b => b) "tar" (by decide),
   c6_error_reporting.2.2.2 (some "tar") false "ar" "a" "b" [] (fun _ => []) (fun _ => [])
      (fun _ b => b) "tar" (by decide)⟩

/-- Claim C7: the directory-target detector is a purely syntactic predicate on
the target string — true exactly when the string is empty, ends with `/`, or
(on the backslash-convention platform) ends with a backslash — together with
the claim's concrete instances. -/
theorem c7_target_is_dir :
    (∀ w p, target_is_dir w p =
      (decide (p = "") || strEndsWith p "/" || (w && strEndsWith p "\\"))) ∧
    (∀ w, target_is_dir w "" = true) ∧
    (∀ w, target_is_dir w "a/b/" = true) ∧
    (∀ w, target_is_dir w "a/b" = false) ∧
    target_is_dir true "a\\b\\" = true ∧
    target_is_dir false "a\\b\\" = false := by
  refine ⟨?_, ?_, ?_, ?_, by decide, by decide⟩
  · intro w p
    unfold target_is_dir
    by_cases h0 : p.toList.length = 0
    · have hp : p = "" := by
        cases p with
        | mk data =>
          have : data = [] := List.eq_nil_of_length_eq_zero h0
          simp [this]
      rw [if_pos h0]
      simp [hp]
    · have hne : ¬(p = "") := by
        intro he
        subst he
        exact h0 rfl
      rw [if_neg h0]
      cases hsw : strEndsWith p "/" <;> cases hbw : strEndsWith p "\\" <;> cases w <;>
        simp [hsw, hbw, hne]
  · intro w; rfl
  · intro w; cases w <;> decide
  · intro w; cases w <;> decide

/-- Claim C8: compression-only round trip.  The codec transforms are the
external xz / gzip / zstd libraries (and the identity for `tar`), modelled as
an abstract family `encOf` / `decOf` indexed by the resolved format name and
assumed to decode what they encode; under that assumption, `create -c` on a
single source pattern writes exactly the encoding of the first matched
file's bytes, and `extract -c` on the resulting archive (same flag, same
archive path, hence the same resolved codec) reproduces those original
bytes exactly. -/
theorem c8_co_round_trip (encOf decOf : String → List Nat → List Nat)
    (hrt : ∀ t b, decOf t (encOf t b) = b)
    (ff : Option String) (ap dst p m : String) (ms : List String)
    (mo : String → List String) (rf : String → List Nat) (t : String)
    (hfmt : check_format_type ff ap = some t) (hmo : mo p = m :: ms) :
    mainCreate ff true false ap false [p] mo rf encOf =
      Outcome.finished [] (encOf t (rf m)) (ap ++ " created.") ∧
    mainExtract ff true ap dst false false decOf (encOf t (rf m)) =
      Outcome.finished [] (rf m) "ok." := by
  constructor
  · simp [mainCreate, hfmt, createCO, hmo]
  · simp [mainExtract, hfmt, hrt]

/-- Witness for C8 with the identity codec family, the explicit `tar`
format, and a two-byte source file. -/
theorem c8_co_round_trip_witness :
    mainCreate (some "tar") true false "ar" false ["p"] (fun _ => ["m"]) (fun _ => [1, 2])
      (fun _ b => b) = Outcome.finished [] [1, 2] ("ar" ++ " created.") ∧
    mainExtract (some "tar") true "ar" "d" false false (fun _ b => b) [1, 2] =
      Outcome.finished [] [1, 2] "ok." :=
  c8_co_round_trip (fun _ b => b) (fun _ b => b) (fun _ _ => rfl) (some "tar") "ar" "d"
    "p" "m" [] (fun _ => ["m"]) (fun _ => [1, 2]) "tar" (by decide) rfl

/-- Claim C9: when the rename target of a group is not directory-like, the
computed entry name of every matched source path is exactly that target
string; several matches all get the same entry name, with no uniqueness
check and no error. -/
theorem c9_exact_rename (w : Bool) (tgt : String) (paths : List String)
    (h : target_is_dir w tgt = false) :
    appendEntries w paths (some tgt) = some (paths.map (fun p => (p, tgt))) := by
  unfold appendEntries
  rw [optMapM_congr _ (fun p => some (p, tgt)) paths
    (by intro p; simp [entryName, h])]
  exact optMapM_some _ _

/-- Witness for C9: two matches under the non-directory-like target `x` both
become entries named `x`. -/
theorem c9_exact_rename_witness :
    appendEntries false ["a", "b"] (some "x") = some [("a", "x"), ("b", "x")] :=
  c9_exact_rename false "x" ["a", "b"] (by decide)

/-- Claim C10: in tar-archive create mode a pattern that matches no path is
not an error — a group of zero matches contributes no entries, and if every
pattern of every directive matches nothing the run still completes through
all directives and finishes with the confirmation line. -/
theorem c10_empty_glob_ok :
    (∀ w tgt, appendEntries w [] tgt = some []) ∧
    (∀ w fp toks mo, (∀ p, mo p = []) →
      createTar w fp false toks mo = Outcome.finished [] [] (fp ++ " created.")) := by
  constructor
  · intro w tgt
    rfl
  · intro w fp toks mo h
    unfold createTar
    have hps := parseDirectives_isSome toks
    rcases hp : parseDirectives toks with _ | maps
    · rw [hp] at hps; simp at hps
    · have hall : ∀ g ∈ maps,
          appendEntries w (globMatches mo g.1) g.2 = some [] := by
        intro g _
        rw [globMatches_nil mo h g.1]
        rfl
      have hm := optMapM_const_nil (fun g => appendEntries w (globMatches mo g.1) g.2) maps hall
      simp [hm, flatten_map_nil]

/-- Witness for C10 at a concrete directive sequence whose patterns all
match nothing. -/
theorem c10_empty_glob_ok_witness :
    createTar false "ar.xz" false ["a", "to", "d/", "b"] (fun _ => []) =
      Outcome.finished [] [] ("ar.xz" ++ " created.") :=
  c10_empty_glob_ok.2 false "ar.xz" ["a", "to", "d/", "b"] (fun _ => []) (fun _ => rfl)

end Star
